import Mathlib

/-!
# Verification of `channel.hpp` (steiltre/channels)

Shallow embedding of the single-header channel library in
`src/include/channel.hpp`.  The core mutable state of `_channel<T>`
(capacity, FIFO queue, closed flag) is modelled as a record; each member
function becomes a pure state-passing function.

Modelling conventions:
* `std::queue<T>` is a `List T` with the front at the head; `push` appends
  to the back, `pop`/`front` act on the head.
* `exit(code)` (via `check_closed`) is modelled as `Except.error code`.
* A thrown C++ exception (`std::bad_optional_access` from
  `std::optional::value()`) is modelled as `Except.error` of a dedicated
  marker type, distinct from process exit.
* The embedding is sequential: a condition-variable wait whose predicate
  already holds returns at once with the state unchanged; a wait whose
  predicate is false (and which only another thread could satisfy) is
  modelled as the whole call returning `none` ("blocks").  Condition
  variable notifications have no effect on the modelled state.
-/

namespace ChannelSpec

/-- Error codes, from `channel.hpp` lines 11-13. -/
def SEND_CLOSED_ERR : Nat := 2

/-- `constexpr int RECV_CLOSED_ERR = 3;` -/
def RECV_CLOSED_ERR : Nat := 3

/-- `constexpr int CLOSE_CLOSED_ERR = 4;` -/
def CLOSE_CLOSED_ERR : Nat := 4

/-- The mutable state of `_channel<T>`: capacity `cap`, the FIFO queue `q`
(front at the head of the list) and the `_closed` flag.  The mutex and the
two condition variables carry no modelled state. -/
structure Core (T : Type) where
  cap : Nat
  q : List T
  closed : Bool
deriving DecidableEq

variable {T : Type}

/-- `_channel<T>::check_closed(msg, exit_code)` (lines 38-43): if the
channel is closed, print `msg` and `exit(exit_code)`; otherwise return. -/
def check_closed (c : Core T) (exit_code : Nat) : Except Nat Unit :=
  if c.closed then Except.error exit_code else Except.ok ()

/-- `_channel<T>::closed()` (lines 67-70): lock and return `_closed`. -/
def isClosed (c : Core T) : Bool :=
  c.closed

/-- `_channel<T>::flush()` (lines 59-65): pop every element off the queue
and notify one waiting sender.  The closed flag is untouched. -/
def flush (c : Core T) : Core T :=
  { c with q := [] }

/-- `_channel<T>::close()` (lines 80-88): `check_closed` with
`CLOSE_CLOSED_ERR` (process exit on a second close), then set
`_closed = true`, swap the queue with an empty one and notify all waiters
on both condition variables. -/
def close (c : Core T) : Except Nat (Core T) :=
  match check_closed c CLOSE_CLOSED_ERR with
  | Except.error e => Except.error e
  | Except.ok _ => Except.ok { c with closed := true, q := [] }

/-- The predicate of the condition-variable wait inside
`_channel<T>::send` (line 102): `_closed || (cap == 0 || q.size() < cap)`. -/
def sendWaitPred (c : Core T) : Bool :=
  c.closed || (c.cap == 0 || decide (c.q.length < c.cap))

/-- `_channel<T>::send(t)` (lines 97-109).  Lock; if closed return
`false`; wait on `_full` for the predicate; re-check closed, returning
`false` if it became true; otherwise push `t` to the back, notify one
receiver and return `true`.  In the sequential embedding a wait whose
predicate is false blocks forever, modelled as `none`. -/
def send (c : Core T) (t : T) : Option (Bool × Core T) :=
  if c.closed then some (false, c)
  else if sendWaitPred c then
    if c.closed then some (false, c)
    else some (true, { c with q := c.q ++ [t] })
  else none

/-- `_channel<T>::recv_immed()` (lines 124-134): lock; if the queue is
empty return an empty `std::optional`; otherwise move out the front
element, pop it, notify one waiting sender and return it. -/
def recv_immed (c : Core T) : Option T × Core T :=
  match c.q with
  | [] => (none, c)
  | t :: rest => (some t, { c with q := rest })

/-- `_channel<T>::recv()` (lines 143-155): `check_closed` with
`RECV_CLOSED_ERR` (process exit), wait on `_empty` for
`_closed || !q.empty()`, `check_closed` again, then pop and return the
front element.  Sequentially: on a closed core the first check exits; on
an open core with an empty queue the wait blocks (`none`); otherwise the
front element is returned.  The second `check_closed` only fires when a
concurrent `close` ended the wait, i.e. when `recv` runs on an
already-closed state, which the first branch covers. -/
def recv (c : Core T) : Option (Except Nat (T × Core T)) :=
  match check_closed c RECV_CLOSED_ERR with
  | Except.error e => some (Except.error e)
  | Except.ok _ =>
    match c.q with
    | [] => none
    | t :: rest => some (Except.ok (t, { c with q := rest }))

/-- `std::optional<T>::value()`: the contained value, or a thrown
`std::bad_optional_access` when the optional is empty (modelled as
`Except.error ()`). -/
def optionalValue (o : Option T) : Except Unit T :=
  match o with
  | none => Except.error ()
  | some t => Except.ok t

/-- `channel<T>::recv_immed()` (line 211):
`return ch->recv_immed().value();` — the inner optional is unwrapped with
`value()` (throwing when it is empty) and the resulting `T` is implicitly
re-wrapped in an engaged `std::optional<T>`. -/
def channel.recv_immed (c : Core T) : Except Unit (Option T) × Core T :=
  let r := ChannelSpec.recv_immed c
  match optionalValue r.fst with
  | Except.error e => (Except.error e, r.snd)
  | Except.ok t => (Except.ok (some t), r.snd)

/-- `channel<T>::close()` (lines 214-219) and the identical
`send_channel<T>::close()` (lines 188-193):
`if (!closed()) ch->close(); ch->flush();`. -/
def handle_close (c : Core T) : Except Nat (Core T) :=
  if isClosed c then Except.ok (flush c)
  else
    match close c with
    | Except.error e => Except.error e
    | Except.ok c' => Except.ok (flush c')

/-- A handle world: the shared core plus the number of live handles whose
`shared_ptr` references it. -/
structure World (T : Type) where
  core : Core T
  handles : Nat
deriving DecidableEq

/-- `channel<T>::~channel()` (lines 204-208) and the identical
`send_channel<T>::~send_channel()` (lines 180-184):
`if (!closed()) ch->close();` — gated only on the closed flag, never on
the `shared_ptr` use count.  The `shared_ptr` then drops one reference;
when this was the last handle, `~_channel` (lines 53-58) runs:
`if (!closed()) close(); flush();`. -/
def destroy_handle (w : World T) : World T :=
  let c :=
    if isClosed w.core then w.core
    else
      match close w.core with
      | Except.ok c' => c'
      | Except.error _ => w.core
  let c2 :=
    if w.handles = 1 then
      let c3 :=
        if isClosed c then c
        else
          match close c with
          | Except.ok c' => c'
          | Except.error _ => c
      flush c3
    else c
  { core := c2, handles := w.handles - 1 }

/-- A sequence of `send` calls, one per element of `l` in order, all of
which must complete and return `true` (a rejected or blocked send yields
`none`). -/
def sendAll (c : Core T) : List T → Option (Core T)
  | [] => some c
  | t :: ts =>
    match send c t with
    | some (true, c') => sendAll c' ts
    | _ => none

/-- `n` consecutive `recv_immed` calls, collecting the returned items in
order; stops early if the queue runs dry. -/
def recvAllImmed : Nat → Core T → List T × Core T
  | 0, c => ([], c)
  | n + 1, c =>
    match ChannelSpec.recv_immed c with
    | (none, c') => ([], c')
    | (some t, c') =>
      let r := recvAllImmed n c'
      (t :: r.fst, r.snd)

/-- `n` consecutive blocking `recv` calls, collecting the returned items
in order; `none` if any of them blocks or exits the process. -/
def recvAllBlock : Nat → Core T → Option (List T × Core T)
  | 0, c => some ([], c)
  | n + 1, c =>
    match recv c with
    | some (Except.ok (t, c')) =>
      match recvAllBlock n c' with
      | some (ts, c'') => some (t :: ts, c'')
      | none => none
    | _ => none

/-- One completed core-level operation of the library, as a relation from
the state before to the state after: a completed `send`, a `recv_immed`,
a `recv` that returned a value, a `close` that succeeded, a `flush`, or a
wrapper `close` (`channel::close` / `send_channel::close`). -/
inductive Step : Core T → Core T → Prop where
  | ofSend (c : Core T) (t : T) (b : Bool) (c' : Core T) :
      send c t = some (b, c') → Step c c'
  | ofRecvImmed (c : Core T) (o : Option T) (c' : Core T) :
      recv_immed c = (o, c') → Step c c'
  | ofRecv (c : Core T) (t : T) (c' : Core T) :
      recv c = some (Except.ok (t, c')) → Step c c'
  | ofClose (c c' : Core T) : close c = Except.ok c' → Step c c'
  | ofFlush (c : Core T) : Step c (flush c)
  | ofHandleClose (c c' : Core T) : handle_close c = Except.ok c' → Step c c'

/-- The closed-implies-empty invariant: once the `_closed` flag is set,
the queue is empty. -/
def Inv (c : Core T) : Prop := c.closed = true → c.q = []

/-- Evaluation of `send` on a closed core. -/
theorem send_closed_eq {c : Core T} (t : T) (hc : c.closed = true) :
    send c t = some (false, c) := by
  unfold send
  rw [hc]
  rfl

/-- Evaluation of `send` on an open core whose wait predicate holds. -/
theorem send_open_eq {c : Core T} (t : T) (hc : c.closed = false)
    (hw : sendWaitPred c = true) :
    send c t = some (true, { c with q := c.q ++ [t] }) := by
  unfold send
  rw [hc, hw]
  rfl

/-- Evaluation of `send` on an open core whose wait predicate fails: the
call blocks. -/
theorem send_blocked_eq {c : Core T} (t : T) (hc : c.closed = false)
    (hw : sendWaitPred c = false) :
    send c t = none := by
  unfold send
  rw [hc, hw]
  rfl

/-- Exhaustive description of the outcomes of a completed `send`. -/
theorem send_cases {c : Core T} {t : T} {b : Bool} {c' : Core T}
    (h : send c t = some (b, c')) :
    (b = false ∧ c' = c) ∨
      (b = true ∧ c.closed = false ∧ sendWaitPred c = true ∧
        c' = { c with q := c.q ++ [t] }) := by
  cases hc : c.closed with
  | true =>
    rw [send_closed_eq t hc] at h
    injection h with h1
    injection h1 with hb hcs
    exact Or.inl ⟨hb.symm, hcs.symm⟩
  | false =>
    cases hw : sendWaitPred c with
    | false => rw [send_blocked_eq t hc hw] at h; exact absurd h (by simp)
    | true =>
      rw [send_open_eq t hc hw] at h
      injection h with h1
      injection h1 with hb hcs
      exact Or.inr ⟨hb.symm, rfl, rfl, hc ▸ hcs.symm⟩

/-- Evaluation of `recv_immed` on an empty queue. -/
theorem recv_immed_nil_eq {c : Core T} (hq : c.q = []) :
    recv_immed c = (none, c) := by
  unfold recv_immed
  rw [hq]

/-- Evaluation of `recv_immed` on a non-empty queue. -/
theorem recv_immed_cons_eq {c : Core T} {t : T} {rest : List T}
    (hq : c.q = t :: rest) :
    recv_immed c = (some t, { c with q := rest }) := by
  unfold recv_immed
  rw [hq]

/-- Exhaustive description of the outcomes of `recv_immed`. -/
theorem recv_immed_cases {c : Core T} {o : Option T} {c' : Core T}
    (h : recv_immed c = (o, c')) :
    (c.q = [] ∧ o = none ∧ c' = c) ∨
      (∃ t rest, c.q = t :: rest ∧ o = some t ∧ c' = { c with q := rest }) := by
  cases hq : c.q with
  | nil =>
    rw [recv_immed_nil_eq hq] at h
    injection h with h1 h2
    exact Or.inl ⟨rfl, h1.symm, h2.symm⟩
  | cons t rest =>
    rw [recv_immed_cons_eq hq] at h
    injection h with h1 h2
    exact Or.inr ⟨t, rest, rfl, h1.symm, h2.symm⟩

/-- Evaluation of `recv` on a closed core: process exit with
`RECV_CLOSED_ERR`. -/
theorem recv_closed_eq {c : Core T} (hc : c.closed = true) :
    recv c = some (Except.error RECV_CLOSED_ERR) := by
  unfold recv check_closed
  rw [hc]
  rfl

/-- Evaluation of `recv` on an open core with an empty queue: the call
blocks. -/
theorem recv_empty_eq {c : Core T} (hc : c.closed = false) (hq : c.q = []) :
    recv c = none := by
  unfold recv check_closed
  rw [hc, hq]
  rfl

/-- Evaluation of `recv` on an open core with a non-empty queue. -/
theorem recv_cons_eq {c : Core T} {t : T} {rest : List T}
    (hc : c.closed = false) (hq : c.q = t :: rest) :
    recv c = some (Except.ok (t, { c with q := rest })) := by
  unfold recv check_closed
  rw [hc, hq]
  rfl

/-- A blocking `recv` returns a value only on an open core with a
non-empty queue, and it pops the front element. -/
theorem recv_ok_cases {c : Core T} {t : T} {c' : Core T}
    (h : recv c = some (Except.ok (t, c'))) :
    c.closed = false ∧ ∃ rest, c.q = t :: rest ∧ c' = { c with q := rest } := by
  cases hc : c.closed with
  | true => rw [recv_closed_eq hc] at h; exact absurd h (by simp)
  | false =>
    cases hq : c.q with
    | nil => rw [recv_empty_eq hc hq] at h; exact absurd h (by simp)
    | cons u rest =>
      rw [recv_cons_eq hc hq] at h
      injection h with h1
      injection h1 with h2
      injection h2 with h3 h4
      exact ⟨rfl, rest, by rw [h3], hc ▸ h4.symm⟩

/-- Evaluation of `close` on an open core. -/
theorem close_open_eq {c : Core T} (hc : c.closed = false) :
    close c = Except.ok { c with closed := true, q := [] } := by
  unfold close check_closed
  rw [hc]
  rfl

/-- Evaluation of `close` on a closed core: process exit with
`CLOSE_CLOSED_ERR`. -/
theorem close_closed_eq {c : Core T} (hc : c.closed = true) :
    close c = Except.error CLOSE_CLOSED_ERR := by
  unfold close check_closed
  rw [hc]
  rfl

/-- A `close` succeeds exactly on an open core, and then closes and
empties it. -/
theorem close_ok_cases {c c' : Core T} (h : close c = Except.ok c') :
    c.closed = false ∧ c' = { c with closed := true, q := [] } := by
  cases hc : c.closed with
  | true => rw [close_closed_eq hc] at h; exact absurd h (by simp)
  | false =>
    rw [close_open_eq hc] at h
    injection h with h1
    exact ⟨rfl, h1.symm⟩

/-- Evaluation of the wrapper `close` on an already-closed core: the core
close is skipped and only `flush` runs. -/
theorem handle_close_closed_eq {c : Core T} (hc : c.closed = true) :
    handle_close c = Except.ok (flush c) := by
  unfold handle_close isClosed
  rw [hc]
  rfl

/-- Evaluation of the wrapper `close` on an open core: the core close
fires, then `flush`. -/
theorem handle_close_open_eq {c : Core T} (hc : c.closed = false) :
    handle_close c = Except.ok { c with closed := true, q := [] } := by
  unfold handle_close isClosed
  rw [hc, close_open_eq hc]
  rfl

/-- The wrapper `close` never fails; it closes the core when it was open
and always leaves the queue empty. -/
theorem handle_close_ok_cases {c c' : Core T}
    (h : handle_close c = Except.ok c') :
    (c.closed = true ∧ c' = flush c) ∨
      (c.closed = false ∧ c' = { c with closed := true, q := [] }) := by
  cases hc : c.closed with
  | true =>
    rw [handle_close_closed_eq hc] at h
    injection h with h1
    exact Or.inl ⟨rfl, h1.symm⟩
  | false =>
    rw [handle_close_open_eq hc] at h
    injection h with h1
    exact Or.inr ⟨rfl, h1.symm⟩

/-- Every completed operation preserves the closed-implies-empty
invariant. -/
theorem step_preserves_inv {c c' : Core T} (hInv : Inv c) (hs : Step c c') :
    Inv c' := by
  cases hs with
  | ofSend t b u h =>
    rcases send_cases h with ⟨_, rfl⟩ | ⟨_, hc, _, rfl⟩
    · exact hInv
    · intro hcl
      simp [hc] at hcl
  | ofRecvImmed o u h =>
    rcases recv_immed_cases h with ⟨_, _, rfl⟩ | ⟨t, rest, hq, _, rfl⟩
    · exact hInv
    · intro hcl
      have hc2 : c.closed = true := by simpa using hcl
      have hemp := hInv hc2
      rw [hq] at hemp
      exact absurd hemp (by simp)
  | ofRecv t u h =>
    obtain ⟨hc, rest, hq, rfl⟩ := recv_ok_cases h
    intro hcl
    simp [hc] at hcl
  | ofClose u h =>
    obtain ⟨hc, rfl⟩ := close_ok_cases h
    intro _
    rfl
  | ofFlush =>
    intro _
    rfl
  | ofHandleClose u h =>
    rcases handle_close_ok_cases h with ⟨_, rfl⟩ | ⟨_, rfl⟩ <;> intro _ <;> rfl

/-- The closed flag is monotone: no completed operation reverts it. -/
theorem step_closed_mono {c c' : Core T} (hs : Step c c')
    (hc : c.closed = true) : c'.closed = true := by
  cases hs with
  | ofSend t b u h =>
    rcases send_cases h with ⟨_, rfl⟩ | ⟨_, hc2, _, rfl⟩
    · exact hc
    · exact absurd hc (by simp [hc2])
  | ofRecvImmed o u h =>
    rcases recv_immed_cases h with ⟨_, _, rfl⟩ | ⟨t, rest, _, _, rfl⟩
    · exact hc
    · simpa using hc
  | ofRecv t u h =>
    obtain ⟨hc2, _, _, rfl⟩ := recv_ok_cases h
    exact absurd hc (by simp [hc2])
  | ofClose u h =>
    obtain ⟨_, rfl⟩ := close_ok_cases h
    rfl
  | ofFlush =>
    simpa [flush] using hc
  | ofHandleClose u h =>
    rcases handle_close_ok_cases h with ⟨_, rfl⟩ | ⟨_, rfl⟩
    · simpa [flush] using hc
    · rfl

/-- A successful `close` establishes the closed-and-empty state. -/
theorem close_establishes {c c' : Core T} (h : close c = Except.ok c') :
    c'.closed = true ∧ c'.q = [] := by
  obtain ⟨_, rfl⟩ := close_ok_cases h
  exact ⟨rfl, rfl⟩

/-- No completed operation changes the capacity. -/
theorem step_preserves_cap {c c' : Core T} (hs : Step c c') :
    c'.cap = c.cap := by
  cases hs with
  | ofSend t b u h =>
    rcases send_cases h with ⟨_, rfl⟩ | ⟨_, _, _, rfl⟩ <;> rfl
  | ofRecvImmed o u h =>
    rcases recv_immed_cases h with ⟨_, _, rfl⟩ | ⟨t, rest, _, _, rfl⟩ <;> rfl
  | ofRecv t u h =>
    obtain ⟨_, rest, _, rfl⟩ := recv_ok_cases h
    rfl
  | ofClose u h =>
    obtain ⟨_, rfl⟩ := close_ok_cases h
    rfl
  | ofFlush => rfl
  | ofHandleClose u h =>
    rcases handle_close_ok_cases h with ⟨_, rfl⟩ | ⟨_, rfl⟩ <;> rfl

/-- On a bounded core the queue length stays within the capacity under
every completed operation. -/
theorem step_preserves_len {c c' : Core T} (hcap : 0 < c.cap)
    (hlen : c.q.length ≤ c.cap) (hs : Step c c') :
    c'.q.length ≤ c.cap := by
  cases hs with
  | ofSend t b u h =>
    rcases send_cases h with ⟨_, rfl⟩ | ⟨_, hc, hw, rfl⟩
    · exact hlen
    · have hlt : c.q.length < c.cap := by
        unfold sendWaitPred at hw
        rw [hc] at hw
        simp at hw
        rcases hw with h0 | hlt
        · omega
        · exact hlt
      simp
      omega
  | ofRecvImmed o u h =>
    rcases recv_immed_cases h with ⟨_, _, rfl⟩ | ⟨t, rest, hq, _, rfl⟩
    · exact hlen
    · rw [hq] at hlen
      simp at hlen ⊢
      omega
  | ofRecv t u h =>
    obtain ⟨_, rest, hq, rfl⟩ := recv_ok_cases h
    rw [hq] at hlen
    simp at hlen ⊢
    omega
  | ofClose u h =>
    obtain ⟨_, rfl⟩ := close_ok_cases h
    simp
  | ofFlush =>
    simp [flush]
  | ofHandleClose u h =>
    rcases handle_close_ok_cases h with ⟨_, rfl⟩ | ⟨_, rfl⟩ <;> simp [flush]

/-- A run of successful sends appends the sent items, in order, to the
back of the queue, and touches neither the closed flag nor the
capacity. -/
theorem sendAll_spec {c : Core T} {l : List T} {c' : Core T}
    (h : sendAll c l = some c') :
    c'.q = c.q ++ l ∧ c'.closed = c.closed ∧ c'.cap = c.cap := by
  induction l generalizing c with
  | nil =>
    unfold sendAll at h
    injection h with h1
    subst h1
    simp
  | cons t ts ih =>
    unfold sendAll at h
    cases hsend : send c t with
    | none => rw [hsend] at h; exact Option.noConfusion h
    | some p =>
      obtain ⟨b, c₁⟩ := p
      rw [hsend] at h
      cases b with
      | false => exact Option.noConfusion h
      | true =>
        rcases send_cases hsend with ⟨hb, _⟩ | ⟨_, hc, _, rfl⟩
        · exact Bool.noConfusion hb
        · have h3 := ih h
          refine ⟨?_, h3.2.1, h3.2.2⟩
          rw [h3.1]
          simp

/-- Popping `l.length` items with `recv_immed` from a queue holding
`l ++ rest` returns exactly `l`, in order, and leaves `rest`. -/
theorem recvAllImmed_spec (l : List T) (c : Core T) (rest : List T)
    (h : c.q = l ++ rest) :
    recvAllImmed l.length c = (l, { c with q := rest }) := by
  induction l generalizing c with
  | nil =>
    show recvAllImmed 0 c = _
    unfold recvAllImmed
    simp at h
    cases c with
    | mk cap q closed => simp_all
  | cons t ts ih =>
    have hq : c.q = t :: (ts ++ rest) := by rw [h]; rfl
    have ih2 := ih { c with q := ts ++ rest } rfl
    show recvAllImmed (ts.length + 1) c = _
    unfold recvAllImmed
    rw [recv_immed_cons_eq hq]
    show (t :: (recvAllImmed ts.length { c with q := ts ++ rest }).fst,
          (recvAllImmed ts.length { c with q := ts ++ rest }).snd)
        = (t :: ts, { c with q := rest })
    rw [ih2]

/-- Popping `l.length` items with blocking `recv` from an open core whose
queue holds `l ++ rest` returns exactly `l`, in order, without blocking or
exiting, and leaves `rest`. -/
theorem recvAllBlock_spec (l : List T) (c : Core T) (rest : List T)
    (h : c.q = l ++ rest) (hopen : c.closed = false) :
    recvAllBlock l.length c = some (l, { c with q := rest }) := by
  induction l generalizing c with
  | nil =>
    show recvAllBlock 0 c = _
    unfold recvAllBlock
    simp at h
    cases c with
    | mk cap q closed => simp_all
  | cons t ts ih =>
    have hq : c.q = t :: (ts ++ rest) := by rw [h]; rfl
    have ih2 := ih { c with q := ts ++ rest } rfl hopen
    show recvAllBlock (ts.length + 1) c = _
    unfold recvAllBlock
    rw [recv_cons_eq hopen hq]
    show (match recvAllBlock ts.length { c with q := ts ++ rest } with
          | some (ts2, c'') => some (t :: ts2, c'')
          | none => none)
        = some (t :: ts, { c with q := rest })
    rw [ih2]

/-- Claim C1 (refuted; code bug): the claim says that on every channel
handle a `recv_immed` with an empty buffer returns the recoverable empty
optional and does not throw.  The public wrapper `channel<T>::recv_immed`
(line 211) calls `.value()` on the empty optional returned by
`_channel::recv_immed`, which throws `std::bad_optional_access`.  Shown on
a fresh open channel of capacity 0 and on a closed-and-flushed channel;
the third conjunct shows the inner `_channel::recv_immed` does return the
empty optional, locating the slip in the wrapper. -/
theorem channel_recv_immed_throws_on_empty :
    (channel.recv_immed ({ cap := 0, q := [], closed := false } : Core Nat)).fst
        = Except.error () ∧
      (channel.recv_immed ({ cap := 2, q := [], closed := true } : Core Nat)).fst
        = Except.error () ∧
      (recv_immed ({ cap := 0, q := [], closed := false } : Core Nat)).fst
        = none :=
  ⟨rfl, rfl, rfl⟩

/-- Claim C2 counterexample: a world with two live handles over one open
core; destroying one handle closes the core even though a sibling handle
still references it, so the destructor close does not fire only on the
last handle. -/
theorem destroy_with_sibling_closes_core :
    (destroy_handle
        ({ core := { cap := 0, q := [1], closed := false }, handles := 2 }
          : World Nat)).core.closed = true :=
  rfl

/-- Claim C2 amended: the destructor of `channel` / `send_channel` is
gated only on the closed flag, never on the reference count — after
destroying any handle the core is closed, no matter how many sibling
handles still share it. -/
theorem destroy_handle_closes_core (w : World Nat) :
    (destroy_handle w).core.closed = true := by
  unfold destroy_handle isClosed
  cases hc : w.core.closed with
  | true =>
    by_cases hh : w.handles = 1 <;> simp [hh, flush, hc]
  | false =>
    rw [close_open_eq hc]
    by_cases hh : w.handles = 1 <;> simp [hh, flush]

/-- Claim C3: double close is fatal — after a successful `close`, a
second `close` on the resulting core terminates the process with exit
status `CLOSE_CLOSED_ERR` instead of returning. -/
theorem close_twice_fatal (c c' : Core Nat) (h : close c = Except.ok c') :
    close c' = Except.error CLOSE_CLOSED_ERR := by
  obtain ⟨_, rfl⟩ := close_ok_cases h
  exact close_closed_eq rfl

/-- Witness for C3 at a concrete core. -/
theorem close_twice_fatal_witness :
    close ({ cap := 1, q := [5], closed := false } : Core Nat)
        = Except.ok { cap := 1, q := [], closed := true } ∧
      close ({ cap := 1, q := [], closed := true } : Core Nat)
        = Except.error CLOSE_CLOSED_ERR :=
  ⟨rfl, close_twice_fatal { cap := 1, q := [5], closed := false }
    { cap := 1, q := [], closed := true } rfl⟩

/-- Claim C4: once the closed flag is true the buffer is empty and stays
empty — a successful `close` establishes closed-and-empty, every
completed operation preserves the closed-implies-empty invariant, and the
closed flag never reverts to false. -/
theorem closed_implies_empty_forever (c c' : Core Nat) (hInv : Inv c)
    (hs : Step c c') :
    Inv c' ∧ (c.closed = true → c'.closed = true) ∧
      ∀ c'', close c = Except.ok c'' → c''.closed = true ∧ c''.q = [] :=
  ⟨step_preserves_inv hInv hs, step_closed_mono hs,
    fun _ h => close_establishes h⟩

/-- Witness for C4: a concrete send on an open two-slot core. -/
theorem closed_implies_empty_forever_witness :
    Inv ({ cap := 2, q := [5], closed := false } : Core Nat) ∧
      (Inv ({ cap := 2, q := [5, 7], closed := false } : Core Nat) ∧
        (({ cap := 2, q := [5], closed := false } : Core Nat).closed = true →
          ({ cap := 2, q := [5, 7], closed := false } : Core Nat).closed
            = true) ∧
        ∀ c'', close ({ cap := 2, q := [5], closed := false } : Core Nat)
            = Except.ok c'' → c''.closed = true ∧ c''.q = []) :=
  ⟨fun h => Bool.noConfusion h,
    closed_implies_empty_forever _ _ (fun h => Bool.noConfusion h)
      (Step.ofSend _ 7 true _ rfl)⟩

/-- Claim C5: FIFO order — starting from an open, empty channel, after a
sequence of successful sends of the (distinct) items of `l`, receiving
`l.length` times returns exactly `l` in send order, both with
`recv_immed` and with blocking `recv`. -/
theorem fifo_order (c : Core Nat) (l : List Nat) (c' : Core Nat)
    (hopen : c.closed = false) (hq : c.q = []) (_hnd : l.Nodup)
    (hsend : sendAll c l = some c') :
    (recvAllImmed l.length c').fst = l ∧
      Option.map Prod.fst (recvAllBlock l.length c') = some l := by
  obtain ⟨h1, h2, _⟩ := sendAll_spec hsend
  rw [hq] at h1
  simp at h1
  rw [hopen] at h2
  constructor
  · rw [recvAllImmed_spec l c' [] (by rw [h1]; simp)]
  · rw [recvAllBlock_spec l c' [] (by rw [h1]; simp) h2]
    rfl

/-- Witness for C5: items 1, 2, 3 through an unbounded channel. -/
theorem fifo_order_witness :
    sendAll ({ cap := 0, q := [], closed := false } : Core Nat) [1, 2, 3]
        = some { cap := 0, q := [1, 2, 3], closed := false } ∧
      (recvAllImmed ([1, 2, 3] : List Nat).length
          { cap := 0, q := [1, 2, 3], closed := false }).fst = [1, 2, 3] ∧
      Option.map Prod.fst (recvAllBlock ([1, 2, 3] : List Nat).length
          { cap := 0, q := [1, 2, 3], closed := false }) = some [1, 2, 3] :=
  ⟨rfl, fifo_order { cap := 0, q := [], closed := false } [1, 2, 3]
    { cap := 0, q := [1, 2, 3], closed := false } rfl rfl (by decide) rfl⟩

/-- Claim C6: `send` on a closed core returns `false` immediately — no
blocking, no exit, and the core state unchanged. -/
theorem send_after_close_returns_false (c : Core Nat) (t : Nat)
    (h : c.closed = true) :
    send c t = some (false, c) :=
  send_closed_eq t h

/-- Witness for C6 at a concrete closed core. -/
theorem send_after_close_returns_false_witness :
    send ({ cap := 3, q := [], closed := true } : Core Nat) 9
      = some (false, { cap := 3, q := [], closed := true }) :=
  send_after_close_returns_false _ 9 rfl

/-- Claim C7: blocking `recv` on a closed core terminates the process
with exit status `RECV_CLOSED_ERR` and never returns a value; that exit
status differs from the `CLOSE_CLOSED_ERR` used for double close.  The
same `check_closed` runs again after the wait, so the theorem applied to
the post-wake state also covers a close observed while waiting. -/
theorem recv_on_closed_terminates (c : Core Nat) (h : c.closed = true) :
    recv c = some (Except.error RECV_CLOSED_ERR) ∧
      RECV_CLOSED_ERR ≠ CLOSE_CLOSED_ERR :=
  ⟨recv_closed_eq h, by decide⟩

/-- Witness for C7 at a concrete closed core. -/
theorem recv_on_closed_terminates_witness :
    recv ({ cap := 1, q := [], closed := true } : Core Nat)
        = some (Except.error RECV_CLOSED_ERR) ∧
      RECV_CLOSED_ERR ≠ CLOSE_CLOSED_ERR :=
  recv_on_closed_terminates _ rfl

/-- Claim C8: capacity invariant — on a core with capacity `c.cap > 0`
and `q.length ≤ cap`, every completed operation keeps the queue length
within the (unchanged) capacity, and `send` pushes only when the queue
holds strictly fewer than `cap` items. -/
theorem capacity_invariant (c c' : Core Nat) (hcap : 0 < c.cap)
    (hlen : c.q.length ≤ c.cap) (hs : Step c c') :
    c'.q.length ≤ c'.cap ∧
      ∀ t c'', send c t = some (true, c'') → c.q.length < c.cap := by
  constructor
  · rw [step_preserves_cap hs]
    exact step_preserves_len hcap hlen hs
  · intro t c'' h
    rcases send_cases h with ⟨hb, _⟩ | ⟨_, hc, hw, _⟩
    · exact Bool.noConfusion hb
    · unfold sendWaitPred at hw
      rw [hc] at hw
      simp at hw
      rcases hw with h0 | hlt
      · omega
      · exact hlt

/-- Witness for C8: a concrete send on a two-slot core holding one
item. -/
theorem capacity_invariant_witness :
    (0 : Nat) < 2 ∧
      (({ cap := 2, q := [5, 7], closed := false } : Core Nat).q.length
          ≤ ({ cap := 2, q := [5, 7], closed := false } : Core Nat).cap ∧
        ∀ t c'', send ({ cap := 2, q := [5], closed := false } : Core Nat) t
            = some (true, c'') →
          ({ cap := 2, q := [5], closed := false } : Core Nat).q.length
            < ({ cap := 2, q := [5], closed := false } : Core Nat).cap) :=
  ⟨by decide,
    capacity_invariant _ { cap := 2, q := [5, 7], closed := false }
      (by decide) (by decide) (Step.ofSend _ 7 true _ rfl)⟩

/-- Claim C9: on an open core with capacity 0 (unbounded), `send` never
blocks on capacity and succeeds, whatever is already buffered. -/
theorem unbounded_send_never_blocks (c : Core Nat) (t : Nat)
    (hcap : c.cap = 0) (hopen : c.closed = false) :
    send c t = some (true, { c with q := c.q ++ [t] }) := by
  apply send_open_eq t hopen
  unfold sendWaitPred
  rw [hcap, hopen]
  rfl

/-- Witness for C9: a fourth item into an unbounded core already holding
three. -/
theorem unbounded_send_never_blocks_witness :
    send ({ cap := 0, q := [1, 2, 3], closed := false } : Core Nat) 4
      = some (true, { cap := 0, q := [1, 2, 3, 4], closed := false }) :=
  unbounded_send_never_blocks _ 4 rfl rfl

/-- Claim C10: the wrapper `close` of `channel` / `send_channel` on an
already-closed core is non-fatal and leaves the state unchanged: the
`closed()` check skips the core close and the extra `flush` of the
already-empty buffer changes nothing. -/
theorem handle_close_on_closed_nonfatal (c : Core Nat) (h : c.closed = true)
    (hq : c.q = []) :
    handle_close c = Except.ok c := by
  rw [handle_close_closed_eq h]
  unfold flush
  cases c with
  | mk cap q closed => simp_all

/-- Witness for C10 at a concrete closed core. -/
theorem handle_close_on_closed_nonfatal_witness :
    handle_close ({ cap := 5, q := [], closed := true } : Core Nat)
      = Except.ok { cap := 5, q := [], closed := true } :=
  handle_close_on_closed_nonfatal _ rfl rfl

end ChannelSpec
